import Mathlib

/-!
Verification of the Checkpointed Tool-Calling Agent Execution Engine
described by spec.md of the llm-playground repository.

The repository's own code (src/notebooks/Agent.ipynb) only wires up the
engine: it constructs an in-memory checkpointer, a web-search tool with
`max_results=2`, and a prebuilt ReAct agent, and consumes two stream
modes ("values" and "messages", the latter filtered on
`metadata["langgraph_node"] == "agent"`).  The engine itself (controller
loop, checkpoint manager, streaming multiplexer, lock manager) is
library code that is not part of the repository, so those components are
modelled here from the specification's words; each such definition marks
this in its doc comment.  The token-stream filter of the notebook cell
IS repository code and is embedded directly.
-/

namespace AgentEngine

/-- A model-issued tool call: id (unique within the emitting Assistant
message), tool name, and arguments (spec §3). -/
structure ToolCall where
  id : String
  name : String
  arguments : String
deriving DecidableEq

/-- A ToolResult's payload: either a success output or an error payload
(spec §3). -/
inductive ToolPayload where
  | output (s : String)
  | error (s : String)
deriving DecidableEq

/-- Modelled from the spec: the closed message sum type
\x7bSystem, User, Assistant, ToolResult\x7d of §3/§9; Assistant carries zero or
more pending ToolCalls, ToolResult carries the originating call id and a
success or error payload. -/
inductive Message where
  | system (content : String)
  | user (content : String)
  | assistant (content : String) (toolCalls : List ToolCall)
  | toolResult (callId : String) (payload : ToolPayload)
deriving DecidableEq

/-- Durable snapshot of a thread: `\x7bthread_id, step_index, messages\x7d`
(spec §3). -/
structure Checkpoint where
  threadId : String
  stepIndex : Nat
  messages : List Message
deriving DecidableEq

/-- Modelled from the spec: the Checkpoint Manager's persisted store
(§4.4), an in-memory map from thread id to its latest checkpoint,
represented as an association list where the most recent save for a
thread shadows older entries. -/
abbrev CheckpointStore := List (String × Checkpoint)

/-- Modelled from the spec: `save(checkpoint)` commits the checkpoint
under its thread id (§4.4). -/
def save (store : CheckpointStore) (cp : Checkpoint) : CheckpointStore :=
  (cp.threadId, cp) :: store

/-- Modelled from the spec: `load(thread_id)` retrieves the latest
checkpoint for the thread, or nothing for a fresh thread (§4.4). -/
def load (store : CheckpointStore) (tid : String) : Option Checkpoint :=
  (store.find? (fun e => e.1 == tid)).map (fun e => e.2)

/-- Origin tag of a streamed text fragment: the top-level model
reasoning/answer generation vs tool-internal processing (spec §3, §4.5). -/
inductive Origin where
  | model
  | tool
deriving DecidableEq

/-- An incremental text fragment tagged with its origin (spec §6:
Token events carry origin and fragment). -/
structure Token where
  origin : Origin
  fragment : String
deriving DecidableEq

/-- Modelled from the spec: the Model Invocation Adapter's final
structured response after its lazy delta sequence completes — the
streamed text tokens, the final content, and zero or more ToolCalls
(§4.3, §6). -/
structure AdapterResponse where
  tokens : List Token
  content : String
  toolCalls : List ToolCall
deriving DecidableEq

/-- Modelled from the spec: the Model Invocation Adapter interface —
current message history in, structured response out (§6). -/
abbrev Adapter := List Message → AdapterResponse

/-- Modelled from the spec: a tool executor — `execute(arguments) →
result | failure` (§6). -/
abbrev ToolExec := ToolCall → Except String String

/-- Converts a tool executor's outcome into a ToolResult payload: a
failure becomes an error payload (spec §7, ToolError). -/
def toPayload : Except String String → ToolPayload
  | .ok s => .output s
  | .error e => .error e

/-- Modelled from the spec: one ToolResult message per issued ToolCall,
correlated by call id, with failures converted to error payloads
(§3, §4.6, §7). -/
def mkToolResults (exec : ToolExec) (calls : List ToolCall) : List Message :=
  calls.map (fun tc => Message.toolResult tc.id (toPayload (exec tc)))

/-- Modelled from the spec: the history after one tool-execution round —
the Assistant message carrying the ToolCalls, followed by all their
ToolResults, appended to the history the model was invoked on (§4.6). -/
def afterRound (msgs : List Message) (r : AdapterResponse) (exec : ToolExec) :
    List Message :=
  msgs ++ [Message.assistant r.content r.toolCalls] ++ mkToolResults exec r.toolCalls

/-- The call ids issued by Assistant messages of a history, in order. -/
def issuedCallIds : List Message → List String
  | [] => []
  | Message.assistant _ calls :: rest => calls.map (fun tc => tc.id) ++ issuedCallIds rest
  | _ :: rest => issuedCallIds rest

/-- The call ids resolved by ToolResult messages of a history, in order. -/
def resolvedCallIds : List Message → List String
  | [] => []
  | Message.toolResult cid _ :: rest => cid :: resolvedCallIds rest
  | _ :: rest => resolvedCallIds rest

/-- Outcome of the Controller's decide/act loop, with the number of
model-invocation rounds performed (spec §4.6, §7). -/
inductive RunResult where
  | done (messages : List Message) (rounds : Nat)
  | loopLimitExceeded (messages : List Message) (rounds : Nat)
deriving DecidableEq

/-- Modelled from the spec: the Agent Controller's decide/act loop
(§4.6) — invoke the adapter; zero ToolCalls means the final Assistant
message is appended and the loop is DONE; otherwise the tool round is
fully resolved and the loop re-invokes the model; once the configured
maximum number of rounds is exhausted the loop stops with
LoopLimitExceeded (§7).  The first argument of the recursion is the
remaining round budget, the last the rounds already performed. -/
def runLoop (adapter : Adapter) (exec : ToolExec) :
    Nat → List Message → Nat → RunResult
  | 0, msgs, rounds => .loopLimitExceeded msgs rounds
  | fuel + 1, msgs, rounds =>
    let r := adapter msgs
    if r.toolCalls.isEmpty then
      .done (msgs ++ [Message.assistant r.content []]) (rounds + 1)
    else
      runLoop adapter exec fuel (afterRound msgs r exec) (rounds + 1)

/-- Whether the loop ended with the LoopLimitExceeded guard. -/
def RunResult.isLoopLimitExceeded : RunResult → Bool
  | .loopLimitExceeded _ _ => true
  | .done _ _ => false

/-- The number of model-invocation rounds the loop performed. -/
def RunResult.roundCount : RunResult → Nat
  | .done _ r => r
  | .loopLimitExceeded _ r => r

/-- Modelled from the spec: the sequence of message histories the
Controller hands to the Model Invocation Adapter, one per
model-invocation round of `runLoop` (§4.6). -/
def invocationHistories (adapter : Adapter) (exec : ToolExec) :
    Nat → List Message → List (List Message)
  | 0, _ => []
  | fuel + 1, msgs =>
    let r := adapter msgs
    if r.toolCalls.isEmpty then
      [msgs]
    else
      msgs :: invocationHistories adapter exec fuel (afterRound msgs r exec)

/-- Whether a message is a ToolResult. -/
def isToolResultMsg : Message → Bool
  | Message.toolResult _ _ => true
  | _ => false

/-- A demonstration adapter for instantiating the general theorems: it
requests one `search` ToolCall until the history contains a ToolResult,
then returns final content with zero ToolCalls. -/
def demoAdapter : Adapter := fun msgs =>
  if msgs.any isToolResultMsg then ⟨[], "done", []⟩
  else ⟨[], "", [⟨"c1", "search", "weather in sf"⟩]⟩

/-- A demonstration tool executor that always succeeds. -/
def demoExec : ToolExec := fun _ => .ok "sunny"

/-- A demonstration tool executor that always fails. -/
def failingExec : ToolExec := fun _ => .error "boom"

/-- A mock adapter that always requests a tool call, as in the spec's
loop-bound property (§8). -/
def loopingAdapter : Adapter := fun _ => ⟨[], "", [⟨"c1", "search", "again"⟩]⟩

/-- A StreamEvent delivered to a consumer: a full-state Value snapshot
per completed step, a Token fragment tagged with its origin, or an Error
description (spec §3, §6). -/
inductive Event where
  | value (stepIndex : Nat) (messages : List Message)
  | token (origin : Origin) (fragment : String)
  | error (kind : String)
deriving DecidableEq

/-- Terminal status of one engine invocation: DONE, or the ERROR state
with its cause (spec §4.6, §7). -/
inductive Status where
  | done
  | errorLoopLimit
  | errorInput
deriving DecidableEq

/-- Configuration of one engine invocation: the Model Invocation
Adapter, the tool executor behind the Tool Registry, and the configured
maximum number of decide/act rounds (spec §4.6, §7). -/
structure StepConfig where
  adapter : Adapter
  exec : ToolExec
  limit : Nat

/-- Modelled from the spec: the Agent Controller loop with streaming and
checkpointing (§4.5, §4.6) — per completed round it commits a checkpoint
with the incremented step index and emits a Value event carrying the
full message list; Token events are emitted for the adapter's fragments;
exhausting the round budget yields the ERROR status with a
LoopLimitExceeded diagnostic event.  Returns the checkpoints committed
in order, the events emitted, and the terminal status. -/
def engineLoop (cfg : StepConfig) (tid : String) :
    Nat → Nat → List Message → List Checkpoint × List Event × Status
  | 0, _, _ => ([], [Event.error "LoopLimitExceeded"], Status.errorLoopLimit)
  | fuel + 1, idx, msgs =>
    let r := cfg.adapter msgs
    let toks := r.tokens.map (fun t => Event.token t.origin t.fragment)
    if r.toolCalls.isEmpty then
      let msgs2 := msgs ++ [Message.assistant r.content []]
      ([⟨tid, idx + 1, msgs2⟩], toks ++ [Event.value (idx + 1) msgs2], Status.done)
    else
      let msgs2 := afterRound msgs r cfg.exec
      let rest := engineLoop cfg tid fuel (idx + 1) msgs2
      (⟨tid, idx + 1, msgs2⟩ :: rest.1,
        toks ++ [Event.value (idx + 1) msgs2] ++ rest.2.1, rest.2.2)

/-- Commits a list of checkpoints to the store in order. -/
def applyCommits (store : CheckpointStore) (cps : List Checkpoint) :
    CheckpointStore :=
  cps.foldl (fun s cp => save s cp) store

/-- The message history of the thread's latest checkpoint, empty for a
fresh thread (spec §4.4: `load` yields the checkpoint or the
empty initial state). -/
def baseMessages (store : CheckpointStore) (tid : String) : List Message :=
  match load store tid with
  | some cp => cp.messages
  | none => []

/-- The step index of the thread's latest checkpoint, zero for a fresh
thread. -/
def baseIndex (store : CheckpointStore) (tid : String) : Nat :=
  match load store tid with
  | some cp => cp.stepIndex
  | none => 0

/-- Result of one engine invocation: the updated store, the checkpoints
committed by this invocation, the events emitted, and the status. -/
structure InvokeResult where
  store : CheckpointStore
  commits : List Checkpoint
  events : List Event
  status : Status
deriving DecidableEq

/-- Modelled from the spec: one engine invocation
`(thread_id, new_message)` (§2, §4.6, §7) — an empty incoming message is
an InputError, rejected before any state mutation and reported to the
caller; otherwise the thread's checkpoint is loaded, the user message
appended, and the decide/act loop run with the configured round limit,
committing its checkpoints to the store. -/
def invokeEngine (cfg : StepConfig) (store : CheckpointStore)
    (tid input : String) : InvokeResult :=
  if input = "" then
    ⟨store, [], [Event.error "InputError"], Status.errorInput⟩
  else
    let st := engineLoop cfg tid cfg.limit (baseIndex store tid)
        (baseMessages store tid ++ [Message.user input])
    ⟨applyCommits store st.1, st.1, st.2.1, st.2.2⟩

/-- Modelled from the spec: consumer cancellation (§4.5, §5, Scenario D)
— the consumer cancels while round `k+1`'s Model Invocation is in
flight; the `k` rounds that fully completed before the cancellation have
committed their checkpoints, the in-flight round commits nothing.
Returns the checkpoints committed before the cancellation. -/
def engineLoopCancelAt (cfg : StepConfig) (tid : String) :
    Nat → Nat → List Message → List Checkpoint
  | 0, _, _ => []
  | k + 1, idx, msgs =>
    let r := cfg.adapter msgs
    if r.toolCalls.isEmpty then
      [⟨tid, idx + 1, msgs ++ [Message.assistant r.content []]⟩]
    else
      let msgs2 := afterRound msgs r cfg.exec
      ⟨tid, idx + 1, msgs2⟩ :: engineLoopCancelAt cfg tid k (idx + 1) msgs2

/-- Modelled from the spec: the store after an engine invocation whose
step was cancelled while round `k+1`'s Model Invocation was in flight
(§5, Scenario D). -/
def invokeEngineCancelAt (cfg : StepConfig) (store : CheckpointStore)
    (tid input : String) (k : Nat) : CheckpointStore :=
  if input = "" then store
  else
    applyCommits store
      (engineLoopCancelAt cfg tid k (baseIndex store tid)
        (baseMessages store tid ++ [Message.user input]))

/-- Whether an event is a Value event. -/
def isValueEvent : Event → Bool
  | Event.value _ _ => true
  | _ => false

/-- The number of Value events among the emitted events. -/
def countValueEvents (evs : List Event) : Nat :=
  (evs.filter isValueEvent).length

/-- An adapter family for the spec's Scenario C: it requests the given
ToolCall until the history contains a ToolResult, then returns the given
final content with zero ToolCalls. -/
def recoveryAdapter (tc : ToolCall) (finalContent : String) : Adapter :=
  fun msgs =>
    if msgs.any isToolResultMsg then ⟨[], finalContent, []⟩
    else ⟨[], "", [tc]⟩

/-- One item of the notebook's `stream_mode="messages"` stream: the
message chunk's text and the metadata's `langgraph_node` entry
(src/notebooks/Agent.ipynb, token-streaming cell). -/
structure StreamItem where
  langgraphNode : String
  text : String
deriving DecidableEq

/-- The origin a stream item's fragment is tagged with (spec §3): the
node named "agent" is the top-level model reasoning/answer generation,
any other node (the tool-execution node) is tool-internal processing. -/
def originOf (node : String) : Origin :=
  if node = "agent" then Origin.model else Origin.tool

/-- Embedded from src/notebooks/Agent.ipynb (token-streaming cell): an
item is delivered to the consumer exactly when
`metadata["langgraph_node"] == "agent"` and the chunk's text is
nonempty. -/
def deliveredTokens (items : List StreamItem) : List StreamItem :=
  items.filter (fun i => i.langgraphNode == "agent" && i.text != "")

/-- Modelled from the spec: the set of thread ids currently holding an
active step — the lock state of the Checkpoint Manager (§4.4, §5). -/
abbrev LockSet := List String

/-- Result of `acquire(thread_id)`: the lock handle (the updated lock
set) or the fail-fast ThreadBusy condition (spec §4.4). -/
inductive AcquireResult where
  | acquired (locks : LockSet)
  | threadBusy
deriving DecidableEq

/-- Modelled from the spec: `acquire(thread_id)` enforces at most one
active step per thread; a second caller on a thread already mid-step
fails fast with ThreadBusy (the spec's recommended policy, §4.4). -/
def acquire (locks : LockSet) (tid : String) : AcquireResult :=
  if tid ∈ locks then AcquireResult.threadBusy
  else AcquireResult.acquired (tid :: locks)

/-- Releases a thread's lock at the end of its step. -/
def release (locks : LockSet) (tid : String) : LockSet :=
  locks.erase tid

/-- Outcome of a lock-guarded step invocation. -/
inductive GuardOutcome where
  | completed (res : InvokeResult)
  | threadBusy
deriving DecidableEq

/-- Modelled from the spec: a step invocation guarded by the per-thread
lock (§4.4, §5) — acquire, run the step, release; on ThreadBusy nothing
runs and the persisted store is untouched. -/
def guardedInvoke (cfg : StepConfig) (locks : LockSet)
    (store : CheckpointStore) (tid input : String) :
    LockSet × CheckpointStore × GuardOutcome :=
  match acquire locks tid with
  | AcquireResult.threadBusy => (locks, store, GuardOutcome.threadBusy)
  | AcquireResult.acquired l2 =>
    let res := invokeEngine cfg store tid input
    (release l2 tid, res.store, GuardOutcome.completed res)

/-- The notebook's search-tool configuration:
`TavilySearchResults(max_results=2)` (src/notebooks/Agent.ipynb,
agent-initialization cell; its markdown states a maximum of 2 results
per query). -/
def tavilyMaxResults : Nat := 2

/-- Modelled from the spec: the web-search tool is an external
collaborator (§6) whose implementation is out of scope; the notebook's
construction fixes that it returns at most `max_results` of the upstream
provider's results per query. -/
def tavilySearch (upstream : List String) : List String :=
  upstream.take tavilyMaxResults

end AgentEngine

namespace AgentEngine

theorem issuedCallIds_append (xs ys : List Message) :
    issuedCallIds (xs ++ ys) = issuedCallIds xs ++ issuedCallIds ys := by
  induction xs with
  | nil => simp [issuedCallIds]
  | cons m rest ih =>
    cases m <;> simp [issuedCallIds, ih]

theorem resolvedCallIds_append (xs ys : List Message) :
    resolvedCallIds (xs ++ ys) = resolvedCallIds xs ++ resolvedCallIds ys := by
  induction xs with
  | nil => simp [resolvedCallIds]
  | cons m rest ih =>
    cases m <;> simp [resolvedCallIds, ih]

theorem issuedCallIds_mkToolResults (exec : ToolExec) (calls : List ToolCall) :
    issuedCallIds (mkToolResults exec calls) = [] := by
  induction calls with
  | nil => simp [mkToolResults, issuedCallIds]
  | cons c rest ih => simpa [mkToolResults, issuedCallIds] using ih

theorem resolvedCallIds_mkToolResults (exec : ToolExec) (calls : List ToolCall) :
    resolvedCallIds (mkToolResults exec calls) =
      calls.map (fun tc => tc.id) := by
  induction calls with
  | nil => simp [mkToolResults, resolvedCallIds]
  | cons c rest ih => simpa [mkToolResults, resolvedCallIds] using ih

theorem issuedCallIds_afterRound (msgs : List Message) (r : AdapterResponse)
    (exec : ToolExec) :
    issuedCallIds (afterRound msgs r exec) =
      issuedCallIds msgs ++ r.toolCalls.map (fun tc => tc.id) := by
  simp [afterRound, issuedCallIds_append, issuedCallIds,
    issuedCallIds_mkToolResults]

theorem resolvedCallIds_afterRound (msgs : List Message) (r : AdapterResponse)
    (exec : ToolExec) :
    resolvedCallIds (afterRound msgs r exec) =
      resolvedCallIds msgs ++ r.toolCalls.map (fun tc => tc.id) := by
  simp [afterRound, resolvedCallIds_append, resolvedCallIds,
    resolvedCallIds_mkToolResults]

/-- C1: For every thread and every checkpoint, saving the checkpoint and
then loading by the same thread id yields a structurally identical
checkpoint — the same step_index and the same messages in the same
order. -/
theorem save_load_roundtrip (store : CheckpointStore) (cp : Checkpoint) :
    load (save store cp) cp.threadId = some cp ∧
    (∀ cp₂, load (save store cp) cp.threadId = some cp₂ →
      cp₂.stepIndex = cp.stepIndex ∧ cp₂.messages = cp.messages) := by
  constructor
  · simp [load, save, List.find?]
  · intro cp₂ h
    simp [load, save, List.find?] at h
    simp [← h]


theorem runLoop_allcalls_aux (adapter : Adapter) (exec : ToolExec)
    (hcalls : ∀ ms, (adapter ms).toolCalls ≠ []) (fuel : Nat) :
    ∀ msgs rounds,
      (runLoop adapter exec fuel msgs rounds).isLoopLimitExceeded = true ∧
      (runLoop adapter exec fuel msgs rounds).roundCount = rounds + fuel := by
  induction fuel with
  | zero =>
    intro msgs rounds
    simp [runLoop, RunResult.isLoopLimitExceeded, RunResult.roundCount]
  | succ n ih =>
    intro msgs rounds
    have h1 : (adapter msgs).toolCalls.isEmpty = false := by
      rcases hl : (adapter msgs).toolCalls with _ | ⟨a, l⟩
      · exact absurd hl (hcalls msgs)
      · simp [hl]
    have hrec := ih (afterRound msgs (adapter msgs) exec) (rounds + 1)
    refine ⟨?_, ?_⟩
    · simpa [runLoop, h1] using hrec.1
    · have : (runLoop adapter exec (n + 1) msgs rounds).roundCount =
          rounds + 1 + n := by
        simpa [runLoop, h1] using hrec.2
      omega

/-- C4: For every step in which the Assistant message issues one or more
ToolCalls, exactly one ToolResult is appended per issued ToolCall,
correlated by call id, before the next Model Invocation is issued: every
history the Controller hands to the adapter has its issued call ids
equal — as ordered lists, hence with multiplicity — to its resolved call
ids, so the loop never re-invokes the model with an unresolved ToolCall
outstanding. -/
theorem toolcalls_resolved_before_next_invocation
    (adapter : Adapter) (exec : ToolExec) (fuel : Nat) (msgs : List Message)
    (hbal : issuedCallIds msgs = resolvedCallIds msgs) :
    ∀ h ∈ invocationHistories adapter exec fuel msgs,
      issuedCallIds h = resolvedCallIds h := by
  induction fuel generalizing msgs with
  | zero =>
    intro h hh
    simp [invocationHistories] at hh
  | succ n ih =>
    intro h hh
    by_cases hc : (adapter msgs).toolCalls.isEmpty
    · simp [invocationHistories, hc] at hh
      simpa [hh] using hbal
    · simp [invocationHistories, hc] at hh
      rcases hh with rfl | hh
      · exact hbal
      · exact ih (afterRound msgs (adapter msgs) exec)
          (by rw [issuedCallIds_afterRound, resolvedCallIds_afterRound, hbal])
          h hh

theorem toolcalls_resolved_witness :
    issuedCallIds
        [Message.user "hi", Message.assistant "" [⟨"c1", "search", "weather in sf"⟩],
          Message.toolResult "c1" (ToolPayload.output "sunny")] =
      resolvedCallIds
        [Message.user "hi", Message.assistant "" [⟨"c1", "search", "weather in sf"⟩],
          Message.toolResult "c1" (ToolPayload.output "sunny")] :=
  toolcalls_resolved_before_next_invocation demoAdapter demoExec 2
    [Message.user "hi"] (by decide)
    [Message.user "hi", Message.assistant "" [⟨"c1", "search", "weather in sf"⟩],
      Message.toolResult "c1" (ToolPayload.output "sunny")]
    (by decide)

/-- C5: With a Model Invocation Adapter that always requests a tool
call, the Controller's decide/act loop terminates (runLoop is a total
function): it ends with LoopLimitExceeded after exactly the configured
maximum number of rounds, never looping indefinitely. -/
theorem loop_limit_exceeded_at_configured_maximum
    (adapter : Adapter) (exec : ToolExec) (limit : Nat) (msgs : List Message)
    (hcalls : ∀ ms, (adapter ms).toolCalls ≠ []) :
    (runLoop adapter exec limit msgs 0).isLoopLimitExceeded = true ∧
    (runLoop adapter exec limit msgs 0).roundCount = limit := by
  have h := runLoop_allcalls_aux adapter exec hcalls limit msgs 0
  simpa using h

theorem loop_limit_witness :
    (runLoop loopingAdapter demoExec 3 [Message.user "hi"] 0).isLoopLimitExceeded
        = true ∧
    (runLoop loopingAdapter demoExec 3 [Message.user "hi"] 0).roundCount = 3 :=
  loop_limit_exceeded_at_configured_maximum loopingAdapter demoExec 3
    [Message.user "hi"] (fun ms => by simp [loopingAdapter])


theorem engineLoopCancelAt_balanced (cfg : StepConfig) (tid : String) (k : Nat) :
    ∀ idx msgs, issuedCallIds msgs = resolvedCallIds msgs →
      ∀ cp ∈ engineLoopCancelAt cfg tid k idx msgs,
        issuedCallIds cp.messages = resolvedCallIds cp.messages := by
  induction k with
  | zero =>
    intro idx msgs hbal cp hcp
    simp [engineLoopCancelAt] at hcp
  | succ n ih =>
    intro idx msgs hbal cp hcp
    by_cases hc : (cfg.adapter msgs).toolCalls.isEmpty
    · simp [engineLoopCancelAt, hc] at hcp
      subst hcp
      simp [issuedCallIds_append, resolvedCallIds_append, issuedCallIds,
        resolvedCallIds, hbal]
    · simp [engineLoopCancelAt, hc] at hcp
      rcases hcp with rfl | hcp
      · simp [issuedCallIds_afterRound, resolvedCallIds_afterRound, hbal]
      · exact ih (idx + 1) (afterRound msgs (cfg.adapter msgs) cfg.exec)
          (by rw [issuedCallIds_afterRound, resolvedCallIds_afterRound, hbal])
          cp hcp

theorem engineLoop_commits_balanced (cfg : StepConfig) (tid : String)
    (fuel : Nat) :
    ∀ idx msgs, issuedCallIds msgs = resolvedCallIds msgs →
      ∀ cp ∈ (engineLoop cfg tid fuel idx msgs).1,
        issuedCallIds cp.messages = resolvedCallIds cp.messages := by
  induction fuel with
  | zero =>
    intro idx msgs hbal cp hcp
    simp [engineLoop] at hcp
  | succ n ih =>
    intro idx msgs hbal cp hcp
    by_cases hc : (cfg.adapter msgs).toolCalls.isEmpty
    · simp [engineLoop, hc] at hcp
      subst hcp
      simp [issuedCallIds_append, resolvedCallIds_append, issuedCallIds,
        resolvedCallIds, hbal]
    · simp [engineLoop, hc] at hcp
      rcases hcp with rfl | hcp
      · simp [issuedCallIds_afterRound, resolvedCallIds_afterRound, hbal]
      · exact ih (idx + 1) (afterRound msgs (cfg.adapter msgs) cfg.exec)
          (by rw [issuedCallIds_afterRound, resolvedCallIds_afterRound, hbal])
          cp hcp

/-- C2: A checkpoint is committed only for a fully completed round —
every checkpoint committed by the loop (with or without a later
cancellation) has every issued ToolCall resolved by a ToolResult in its
messages — and a step cancelled mid-flight (during its first Model
Invocation, before any round completed) commits nothing: the store is
exactly the one from before the step, so a subsequent load returns
exactly the prior checkpoint. -/
theorem checkpoint_only_after_completed_step (cfg : StepConfig)
    (store : CheckpointStore) (tid input : String) (k fuel idx : Nat)
    (msgs : List Message)
    (hbal : issuedCallIds msgs = resolvedCallIds msgs) :
    invokeEngineCancelAt cfg store tid input 0 = store ∧
    load (invokeEngineCancelAt cfg store tid input 0) tid = load store tid ∧
    (∀ cp ∈ engineLoopCancelAt cfg tid k idx msgs,
      issuedCallIds cp.messages = resolvedCallIds cp.messages) ∧
    (∀ cp ∈ (engineLoop cfg tid fuel idx msgs).1,
      issuedCallIds cp.messages = resolvedCallIds cp.messages) := by
  have hstore : invokeEngineCancelAt cfg store tid input 0 = store := by
    by_cases h : input = "" <;>
      simp [invokeEngineCancelAt, engineLoopCancelAt, applyCommits, h]
  refine ⟨hstore, by rw [hstore], ?_, ?_⟩
  · exact engineLoopCancelAt_balanced cfg tid k idx msgs hbal
  · exact engineLoop_commits_balanced cfg tid fuel idx msgs hbal

theorem checkpoint_only_after_completed_step_witness :
    invokeEngineCancelAt ⟨demoAdapter, demoExec, 3⟩ [] "abc123" "hi" 0 = [] ∧
    load (invokeEngineCancelAt ⟨demoAdapter, demoExec, 3⟩ [] "abc123" "hi" 0)
        "abc123" = load [] "abc123" ∧
    (∀ cp ∈ engineLoopCancelAt ⟨demoAdapter, demoExec, 3⟩ "abc123" 2 0
        [Message.user "hi"],
      issuedCallIds cp.messages = resolvedCallIds cp.messages) ∧
    (∀ cp ∈ (engineLoop ⟨demoAdapter, demoExec, 3⟩ "abc123" 3 0
        [Message.user "hi"]).1,
      issuedCallIds cp.messages = resolvedCallIds cp.messages) :=
  checkpoint_only_after_completed_step ⟨demoAdapter, demoExec, 3⟩ [] "abc123"
    "hi" 2 3 0 [Message.user "hi"] (by decide)


/-- C3: In Token mode, every delivered Token fragment originates from
the top-level model reasoning/answer generation (the node named
"agent"); no fragment of Tool origin is ever delivered to the consumer
— embedded from the notebook's token-streaming filter. -/
theorem token_mode_model_origin_only (items : List StreamItem)
    (i : StreamItem) (hi : i ∈ deliveredTokens items) :
    originOf i.langgraphNode = Origin.model ∧
    originOf i.langgraphNode ≠ Origin.tool := by
  simp only [deliveredTokens, List.mem_filter] at hi
  have h1 : i.langgraphNode = "agent" := by
    have hp := hi.2
    simp only [Bool.and_eq_true, beq_iff_eq, bne_iff_ne] at hp
    exact hp.1
  constructor
  · simp [originOf, h1]
  · simp [originOf, h1]

theorem token_mode_model_origin_only_witness :
    originOf (StreamItem.mk "agent" "Hello").langgraphNode = Origin.model ∧
    originOf (StreamItem.mk "agent" "Hello").langgraphNode ≠ Origin.tool :=
  token_mode_model_origin_only
    [⟨"agent", "Hello"⟩, ⟨"tools", "raw tool output"⟩]
    ⟨"agent", "Hello"⟩ (by decide)

/-- C8: An empty incoming message — the model's only notion of a
malformed message, since content is the message's sole payload — is
rejected before any state mutation: the error is reported to the caller
as an Error event, no checkpoint is committed, and the store (hence the
thread's message history, checkpoint and step index) is unchanged. -/
theorem input_rejected_before_mutation (cfg : StepConfig)
    (store : CheckpointStore) (tid : String) :
    invokeEngine cfg store tid "" =
      ⟨store, [], [Event.error "InputError"], Status.errorInput⟩ ∧
    (invokeEngine cfg store tid "").store = store ∧
    (invokeEngine cfg store tid "").commits = [] ∧
    load (invokeEngine cfg store tid "").store tid = load store tid := by
  refine ⟨?_, ?_, ?_, ?_⟩ <;> simp [invokeEngine]

/-- C9: Two step invocations on the same thread id never both hold an
active step: with the fail-fast policy, an attempt on a thread whose
step is active returns ThreadBusy, acquires nothing, and leaves the lock
set and the persisted store — in particular the first step's checkpoint
— exactly as they were. -/
theorem thread_mutual_exclusion (cfg : StepConfig) (locks : LockSet)
    (store : CheckpointStore) (tid input : String) (hactive : tid ∈ locks) :
    guardedInvoke cfg locks store tid input =
      (locks, store, GuardOutcome.threadBusy) ∧
    (∀ l2, acquire locks tid ≠ AcquireResult.acquired l2) ∧
    load (guardedInvoke cfg locks store tid input).2.1 tid = load store tid := by
  have ha : acquire locks tid = AcquireResult.threadBusy := by
    simp [acquire, hactive]
  refine ⟨?_, ?_, ?_⟩
  · simp [guardedInvoke, ha]
  · intro l2
    simp [ha]
  · simp [guardedInvoke, ha]

theorem thread_mutual_exclusion_witness :
    guardedInvoke ⟨demoAdapter, demoExec, 3⟩ ["abc123"] [] "abc123" "hi" =
      (["abc123"], [], GuardOutcome.threadBusy) ∧
    (∀ l2, acquire ["abc123"] "abc123" ≠ AcquireResult.acquired l2) ∧
    load (guardedInvoke ⟨demoAdapter, demoExec, 3⟩ ["abc123"] [] "abc123"
        "hi").2.1 "abc123" = load [] "abc123" :=
  thread_mutual_exclusion ⟨demoAdapter, demoExec, 3⟩ ["abc123"] [] "abc123"
    "hi" (by decide)

/-- C10: Every web-search ToolResult payload contains at most 2 search
results: the tool is constructed with a fixed maximum of 2 results per
query. -/
theorem search_results_at_most_two (upstream : List String) :
    (tavilySearch upstream).length ≤ 2 := by
  simp only [tavilySearch, tavilyMaxResults, List.length_take]
  omega


theorem countValueEvents_append (a b : List Event) :
    countValueEvents (a ++ b) = countValueEvents a + countValueEvents b := by
  simp [countValueEvents, List.filter_append]

theorem countValueEvents_token_map (toks : List Token) :
    countValueEvents (toks.map (fun t => Event.token t.origin t.fragment))
      = 0 := by
  simp [countValueEvents, List.filter_map, Function.comp, isValueEvent]

/-- C7: Scenario A — a fresh thread, the single input
"hi im bob and i live in sf", and an adapter returning final content
with zero tool calls: the run commits exactly one checkpoint, with
step_index 1 and messages exactly the User message followed by the final
Assistant message, loadable by the thread id, and exactly one Value
event is emitted. -/
theorem scenario_a_fresh_thread (content : String) (tokens : List Token)
    (exec : ToolExec) (limit : Nat) (hl : 0 < limit) :
    ∀ res : InvokeResult,
      res = invokeEngine ⟨fun _ => ⟨tokens, content, []⟩, exec, limit⟩ []
          "abc123" "hi im bob and i live in sf" →
      res.status = Status.done ∧
      res.commits = [⟨"abc123", 1,
        [Message.user "hi im bob and i live in sf",
          Message.assistant content []]⟩] ∧
      load res.store "abc123" = some ⟨"abc123", 1,
        [Message.user "hi im bob and i live in sf",
          Message.assistant content []]⟩ ∧
      countValueEvents res.events = 1 := by
  obtain ⟨n, rfl⟩ : ∃ n, limit = n + 1 := ⟨limit - 1, by omega⟩
  intro res hres
  subst hres
  refine ⟨?_, ?_, ?_, ?_⟩
  · simp [invokeEngine, engineLoop, baseMessages, baseIndex, load]
  · simp [invokeEngine, engineLoop, baseMessages, baseIndex, load]
  · simp [invokeEngine, engineLoop, baseMessages, baseIndex, load, save,
      applyCommits, List.find?]
  · simp [invokeEngine, engineLoop, baseMessages, baseIndex, load,
      countValueEvents_append, countValueEvents_token_map, countValueEvents,
      isValueEvent]

theorem scenario_a_witness :
    (invokeEngine ⟨fun _ => ⟨[], "Hi Bob!", []⟩, demoExec, 1⟩ [] "abc123"
        "hi im bob and i live in sf").status = Status.done ∧
    (invokeEngine ⟨fun _ => ⟨[], "Hi Bob!", []⟩, demoExec, 1⟩ [] "abc123"
        "hi im bob and i live in sf").commits = [⟨"abc123", 1,
      [Message.user "hi im bob and i live in sf",
        Message.assistant "Hi Bob!" []]⟩] ∧
    load (invokeEngine ⟨fun _ => ⟨[], "Hi Bob!", []⟩, demoExec, 1⟩ [] "abc123"
        "hi im bob and i live in sf").store "abc123" = some ⟨"abc123", 1,
      [Message.user "hi im bob and i live in sf",
        Message.assistant "Hi Bob!" []]⟩ ∧
    countValueEvents ((invokeEngine ⟨fun _ => ⟨[], "Hi Bob!", []⟩, demoExec, 1⟩
        [] "abc123" "hi im bob and i live in sf").events) = 1 :=
  scenario_a_fresh_thread "Hi Bob!" [] demoExec 1 (by decide)
    (invokeEngine ⟨fun _ => ⟨[], "Hi Bob!", []⟩, demoExec, 1⟩ [] "abc123"
      "hi im bob and i live in sf") rfl

/-- C6: A failing tool execution is converted into a ToolResult error
payload appended to history and fed back to the model on the next
invocation (the second committed round contains it and the model's
subsequent final answer); the single tool failure does not transition
the run to ERROR — the loop continues to a final Assistant message and
the status is DONE. -/
theorem tool_failure_recovered (tc : ToolCall) (emsg finalContent : String)
    (exec : ToolExec) (limit : Nat) (tid input : String)
    (hexec : exec tc = Except.error emsg) (hlim : 2 ≤ limit)
    (hin : ¬ input = "") :
    ∀ res : InvokeResult,
      res = invokeEngine ⟨recoveryAdapter tc finalContent, exec, limit⟩ []
          tid input →
      res.status = Status.done ∧
      res.commits = [
        ⟨tid, 1, [Message.user input, Message.assistant "" [tc],
          Message.toolResult tc.id (ToolPayload.error emsg)]⟩,
        ⟨tid, 2, [Message.user input, Message.assistant "" [tc],
          Message.toolResult tc.id (ToolPayload.error emsg),
          Message.assistant finalContent []]⟩] := by
  obtain ⟨n, rfl⟩ : ∃ n, limit = n + 1 + 1 := ⟨limit - 2, by omega⟩
  intro res hres
  subst hres
  refine ⟨?_, ?_⟩ <;>
    simp [invokeEngine, hin, engineLoop, baseMessages, baseIndex, load,
      recoveryAdapter, isToolResultMsg, afterRound, mkToolResults, toPayload,
      hexec, applyCommits, save]

theorem tool_failure_recovered_witness :
    (invokeEngine ⟨recoveryAdapter ⟨"c1", "search", "q"⟩ "sorry about that",
        failingExec, 2⟩ [] "abc123" "hi").status = Status.done ∧
    (invokeEngine ⟨recoveryAdapter ⟨"c1", "search", "q"⟩ "sorry about that",
        failingExec, 2⟩ [] "abc123" "hi").commits = [
      ⟨"abc123", 1, [Message.user "hi",
        Message.assistant "" [⟨"c1", "search", "q"⟩],
        Message.toolResult "c1" (ToolPayload.error "boom")]⟩,
      ⟨"abc123", 2, [Message.user "hi",
        Message.assistant "" [⟨"c1", "search", "q"⟩],
        Message.toolResult "c1" (ToolPayload.error "boom"),
        Message.assistant "sorry about that" []]⟩] :=
  tool_failure_recovered ⟨"c1", "search", "q"⟩ "boom" "sorry about that"
    failingExec 2 "abc123" "hi" rfl (by decide) (by decide)
    (invokeEngine ⟨recoveryAdapter ⟨"c1", "search", "q"⟩ "sorry about that",
      failingExec, 2⟩ [] "abc123" "hi") rfl

end AgentEngine
